import Mathlib

/-!
Verification of the HTTP service in `api_using_http_lib.go`.

The Go program exposes two endpoints:
  * `/health`  — `healthHandler`, lines 28–37
  * `/process` — `processHandler`, lines 40–79

The handlers are shallowly embedded as pure Lean functions.  Behaviour of the
Go standard library that the handlers rely on is modelled faithfully:

  * `json.NewDecoder(body).Decode(&input)` reads exactly one JSON value from
    the stream and leaves any trailing bytes unread; `Decode` on an
    all-whitespace stream fails with the message `EOF`.
  * Unmarshalling into `ProcessInput` matches object keys case-insensitively
    to the field tags `name` / `value`, ignores unknown keys, leaves a field
    untouched on JSON `null`, and rejects non-string / non-integer values.
  * `http.Error(w, msg, code)` sets content type
    `text/plain; charset=utf-8` and writes `msg` followed by a newline.
  * `json.NewEncoder(w).Encode(v)` writes the JSON encoding of `v` followed
    by a newline; struct fields are emitted in declaration order, map keys
    are emitted in sorted order, and `<`, `>`, `&` are HTML-escaped.
  * `os.Getenv` returns `""` for an unset variable, so an environment is
    modelled as a total function `String → String` where `""` means
    "unset or empty".
-/

deriving instance DecidableEq for Except

/-- JSON whitespace, as accepted by `encoding/json`. -/
def isWs (c : Char) : Bool :=
  c = ' ' || c = '\t' || c = '\n' || c = '\r'

/-- Drop leading JSON whitespace. -/
def skipWs : List Char → List Char
  | [] => []
  | c :: cs => if isWs c then skipWs cs else c :: cs

def lbraceChar : Char := Char.ofNat 123

def rbraceChar : Char := Char.ofNat 125

/-- JSON values, the decoder's intermediate representation.  A number records
its integer part and whether the literal was a plain integer (no fraction, no
exponent); only integer literals may populate an `int` struct field. -/
inductive Jval where
  | null : Jval
  | bool (b : Bool) : Jval
  | num (n : Int) (isInt : Bool) : Jval
  | str (s : String) : Jval
  | arr (elems : List Jval) : Jval
  | obj (fields : List (String × Jval)) : Jval

/-- Consume an expected sequence of characters (for the literals
`true` / `false` / `null`). -/
def expectChars : List Char → List Char → Option (List Char)
  | [], cs => some cs
  | _ :: _, [] => none
  | p :: ps, c :: cs => if c = p then expectChars ps cs else none

/-- Split off a maximal run of leading decimal digits. -/
def takeDigits : List Char → List Char × List Char
  | [] => ([], [])
  | c :: cs =>
    if c.isDigit then
      let r := takeDigits cs
      (c :: r.1, r.2)
    else ([], c :: cs)

def digitsToNat (ds : List Char) : Nat :=
  ds.foldl (fun acc c => acc * 10 + (c.toNat - 48)) 0

/-- Parse an optional exponent part; returns whether one was present. -/
def parseExp (cs : List Char) : Except String (Bool × List Char) :=
  match cs with
  | [] => .ok (false, [])
  | c :: r =>
    if c = 'e' ∨ c = 'E' then
      let r2 := match r with
        | s :: r' => if s = '+' ∨ s = '-' then r' else s :: r'
        | [] => []
      match takeDigits r2 with
      | ([], _) => .error "invalid character in exponent of numeric literal"
      | (_, r3) => .ok (true, r3)
    else .ok (false, c :: r)

/-- Parse a JSON number per the JSON grammar: `-? (0 | [1-9][0-9]*) frac? exp?`.
Returns the integer part, whether the literal was a plain integer, and the
remaining input. -/
def parseNumber (cs : List Char) : Except String (Int × Bool × List Char) :=
  let start : Bool × List Char := match cs with
    | c :: r => if c = '-' then (true, r) else (false, cs)
    | [] => (false, [])
  let neg := start.1
  match start.2 with
  | [] => .error "unexpected EOF"
  | c :: cs2 =>
    if c.isDigit then
      let intPart : List Char × List Char :=
        if c = '0' then (['0'], cs2) else takeDigits (c :: cs2)
      let n : Int := (digitsToNat intPart.1 : Int)
      let v : Int := if neg then -n else n
      match intPart.2 with
      | '.' :: r =>
        match takeDigits r with
        | ([], _) => .error "invalid character after decimal point in numeric literal"
        | (_, r2) =>
          match parseExp r2 with
          | .error e => .error e
          | .ok (_, r3) => .ok (v, false, r3)
      | rest =>
        match parseExp rest with
        | .error e => .error e
        | .ok (hasExp, r3) => .ok (v, !hasExp, r3)
    else .error ("invalid character " ++ String.singleton c ++ " in numeric literal")

def isHexDigitChar (c : Char) : Bool :=
  c.isDigit || ('a' ≤ c && c ≤ 'f') || ('A' ≤ c && c ≤ 'F')

/-- Parse four hex digits of a `\u` escape. -/
def parseHex4 (cs : List Char) : Option (Nat × List Char) :=
  match cs with
  | a :: b :: c :: d :: rest =>
    if isHexDigitChar a && isHexDigitChar b && isHexDigitChar c && isHexDigitChar d then
      let hv : Char → Nat := fun x =>
        if x.isDigit then x.toNat - 48
        else if x.toNat ≥ 97 then x.toNat - 87
        else x.toNat - 55
      some (((hv a * 16 + hv b) * 16 + hv c) * 16 + hv d, rest)
    else none
  | _ => none

/-- Parse the body of a JSON string, the opening quote already consumed.
Escapes are decoded as `encoding/json` does; a lone surrogate becomes
U+FFFD, a surrogate pair is combined. -/
def parseStringRest : Nat → List Char → List Char → Except String (String × List Char)
  | 0, _, _ => .error "recursion limit"
  | _ + 1, _, [] => .error "unexpected EOF"
  | fuel + 1, acc, c :: cs =>
    if c = '"' then .ok (String.mk acc.reverse, cs)
    else if c = '\\' then
      match cs with
      | [] => .error "unexpected EOF"
      | e :: cs2 =>
        if e = '"' then parseStringRest fuel ('"' :: acc) cs2
        else if e = '\\' then parseStringRest fuel ('\\' :: acc) cs2
        else if e = '/' then parseStringRest fuel ('/' :: acc) cs2
        else if e = 'b' then parseStringRest fuel (Char.ofNat 8 :: acc) cs2
        else if e = 'f' then parseStringRest fuel (Char.ofNat 12 :: acc) cs2
        else if e = 'n' then parseStringRest fuel ('\n' :: acc) cs2
        else if e = 'r' then parseStringRest fuel ('\r' :: acc) cs2
        else if e = 't' then parseStringRest fuel ('\t' :: acc) cs2
        else if e = 'u' then
          match parseHex4 cs2 with
          | none => .error "invalid character in string escape code"
          | some (n1, cs3) =>
            if 0xD800 ≤ n1 ∧ n1 < 0xDC00 then
              match cs3 with
              | '\\' :: 'u' :: cs4 =>
                match parseHex4 cs4 with
                | some (n2, cs5) =>
                  if 0xDC00 ≤ n2 ∧ n2 < 0xE000 then
                    parseStringRest fuel
                      (Char.ofNat (0x10000 + (n1 - 0xD800) * 0x400 + (n2 - 0xDC00)) :: acc) cs5
                  else parseStringRest fuel (Char.ofNat 0xFFFD :: acc) cs3
                | none => parseStringRest fuel (Char.ofNat 0xFFFD :: acc) cs3
              | _ => parseStringRest fuel (Char.ofNat 0xFFFD :: acc) cs3
            else if 0xDC00 ≤ n1 ∧ n1 < 0xE000 then
              parseStringRest fuel (Char.ofNat 0xFFFD :: acc) cs3
            else parseStringRest fuel (Char.ofNat n1 :: acc) cs3
        else .error "invalid string escape code"
    else if c.toNat < 32 then .error "invalid character in string literal"
    else parseStringRest fuel (c :: acc) cs

/-- Parse the members of a JSON object, positioned at the first key (the
opening brace consumed, the object known to be non-empty).  `pv` parses one
nested value. -/
def objLoop (pv : List Char → Except String (Jval × List Char)) :
    Nat → List (String × Jval) → List Char → Except String (Jval × List Char)
  | 0, _, _ => .error "recursion limit"
  | fuel + 1, acc, cs =>
    match skipWs cs with
    | [] => .error "unexpected EOF"
    | c :: cs1 =>
      if c = '"' then
        match parseStringRest (cs1.length + 1) [] cs1 with
        | .error e => .error e
        | .ok (k, cs2) =>
          match skipWs cs2 with
          | [] => .error "unexpected EOF"
          | c2 :: cs3 =>
            if c2 = ':' then
              match pv cs3 with
              | .error e => .error e
              | .ok (v, cs4) =>
                match skipWs cs4 with
                | [] => .error "unexpected EOF"
                | c3 :: cs5 =>
                  if c3 = ',' then objLoop pv fuel (acc ++ [(k, v)]) cs5
                  else if c3 = rbraceChar then .ok (Jval.obj (acc ++ [(k, v)]), cs5)
                  else .error ("invalid character " ++ String.singleton c3 ++
                    " after object key:value pair")
            else .error ("invalid character " ++ String.singleton c2 ++ " after object key")
      else .error ("invalid character " ++ String.singleton c ++
        " looking for beginning of object key string")

/-- Parse the elements of a JSON array, positioned at the first element. -/
def arrLoop (pv : List Char → Except String (Jval × List Char)) :
    Nat → List Jval → List Char → Except String (Jval × List Char)
  | 0, _, _ => .error "recursion limit"
  | fuel + 1, acc, cs =>
    match pv cs with
    | .error e => .error e
    | .ok (v, cs1) =>
      match skipWs cs1 with
      | [] => .error "unexpected EOF"
      | c :: cs2 =>
        if c = ',' then arrLoop pv fuel (acc ++ [v]) cs2
        else if c = ']' then .ok (Jval.arr (acc ++ [v]), cs2)
        else .error ("invalid character " ++ String.singleton c ++ " after array element")

/-- Parse one JSON value from the front of the input, as
`json.Decoder.Decode` reads one value and leaves the rest of the stream
unread.  The fuel bounds nesting and iteration; seeded with more than the
input length it never runs out. -/
def parseJval : Nat → List Char → Except String (Jval × List Char)
  | 0, _ => .error "recursion limit"
  | fuel + 1, cs =>
    match skipWs cs with
    | [] => .error "unexpected EOF"
    | c :: cs1 =>
      if c = lbraceChar then
        match skipWs cs1 with
        | [] => .error "unexpected EOF"
        | c2 :: cs2 =>
          if c2 = rbraceChar then .ok (Jval.obj [], cs2)
          else objLoop (parseJval fuel) fuel [] cs1
      else if c = '[' then
        match skipWs cs1 with
        | [] => .error "unexpected EOF"
        | c2 :: cs2 =>
          if c2 = ']' then .ok (Jval.arr [], cs2)
          else arrLoop (parseJval fuel) fuel [] cs1
      else if c = '"' then
        match parseStringRest (cs1.length + 1) [] cs1 with
        | .error e => .error e
        | .ok (s, rest) => .ok (Jval.str s, rest)
      else if c = 't' then
        match expectChars ['r', 'u', 'e'] cs1 with
        | some rest => .ok (Jval.bool true, rest)
        | none => .error "invalid character in literal true"
      else if c = 'f' then
        match expectChars ['a', 'l', 's', 'e'] cs1 with
        | some rest => .ok (Jval.bool false, rest)
        | none => .error "invalid character in literal false"
      else if c = 'n' then
        match expectChars ['u', 'l', 'l'] cs1 with
        | some rest => .ok (Jval.null, rest)
        | none => .error "invalid character in literal null"
      else if c = '-' || c.isDigit then
        match parseNumber (c :: cs1) with
        | .error e => .error e
        | .ok (n, isInt, rest) => .ok (Jval.num n isInt, rest)
      else .error ("invalid character " ++ String.singleton c ++
        " looking for beginning of value")

/-- `s` is a single well-formed JSON document: one value, nothing but
whitespace after it. -/
def isSingleJsonDocument (s : String) : Bool :=
  match parseJval (s.toList.length + 1) s.toList with
  | .ok (_, rest) => (skipWs rest).isEmpty
  | .error _ => false

/-- `type ProcessInput struct` (source lines 14–17): the decoded request body
of `/process`.  Go's `int` is 64-bit; the range is enforced at unmarshal
time, so `Value` is an unbounded `Int` here. -/
structure ProcessInput where
  Name : String
  Value : Int
  deriving DecidableEq

/-- `type ProcessResponse struct` (source lines 20–25): the success response
of `/process`. -/
structure ProcessResponse where
  Message : String
  ReceivedName : String
  ReceivedValue : Int
  SecretFromEnv : String
  deriving DecidableEq

def int64Min : Int := -(2 ^ 63)

def int64Max : Int := 2 ^ 63 - 1

/-- Assign one decoded object member to the matching `ProcessInput` field, as
`encoding/json` unmarshalling does: keys match the field tags `name` /
`value` case-insensitively, unknown keys are ignored, `null` leaves the field
untouched, and a wrong-typed or out-of-range value is an unmarshal error. -/
def lowerAsciiChar (c : Char) : Char :=
  if 65 ≤ c.toNat ∧ c.toNat ≤ 90 then Char.ofNat (c.toNat + 32) else c

/-- Case-insensitive match of an object key against a field tag, as
`encoding/json` matches keys to struct fields.  The tags `name` / `value`
are ASCII, so ASCII folding of the key decides the match. -/
def keyMatches (k tag : String) : Bool :=
  k.toList.map lowerAsciiChar = tag.toList

def assignField (inp : ProcessInput) (k : String) (v : Jval) :
    Except String ProcessInput :=
  if keyMatches k "name" then
    match v with
    | .null => .ok inp
    | .str s => .ok { inp with Name := s }
    | _ => .error "json: cannot unmarshal value into Go struct field ProcessInput.name of type string"
  else if keyMatches k "value" then
    match v with
    | .null => .ok inp
    | .num n isInt =>
      if isInt then
        if int64Min ≤ n ∧ n ≤ int64Max then .ok { inp with Value := n }
        else .error "json: cannot unmarshal number into Go struct field ProcessInput.value of type int"
      else .error "json: cannot unmarshal number into Go struct field ProcessInput.value of type int"
    | _ => .error "json: cannot unmarshal value into Go struct field ProcessInput.value of type int"
  else .ok inp

/-- Process the object members in order; with duplicate keys the last
assignment wins, as in `encoding/json`. -/
def assignFields : ProcessInput → List (String × Jval) → Except String ProcessInput
  | inp, [] => .ok inp
  | inp, (k, v) :: rest =>
    match assignField inp k v with
    | .ok inp2 => assignFields inp2 rest
    | .error e => .error e

/-- Unmarshal a decoded JSON value into `ProcessInput`: an object assigns its
members, `null` is a no-op leaving the zero value, anything else is a type
error. -/
def jvalToProcessInput : Jval → Except String ProcessInput
  | .null => .ok { Name := "", Value := 0 }
  | .obj kvs => assignFields { Name := "", Value := 0 } kvs
  | _ => .error "json: cannot unmarshal value into Go value of type main.ProcessInput"

/-- `json.NewDecoder(r.Body).Decode(&input)` (source lines 49–50): skip
leading whitespace (an empty stream is the `EOF` error), read exactly one
JSON value — trailing bytes are left unread — and unmarshal it. -/
def decodeProcessInput (body : String) : Except String ProcessInput :=
  let cs := body.toList
  match skipWs cs with
  | [] => .error "EOF"
  | _ =>
    match parseJval (cs.length + 1) cs with
    | .error e => .error e
    | .ok (v, _) => jvalToProcessInput v

def hexDigitChar (n : Nat) : Char :=
  if n < 10 then Char.ofNat (48 + n) else Char.ofNat (87 + n)

/-- JSON string escaping as `encoding/json` performs it with the encoder's
default HTML escaping: quotes, backslashes, control characters, `<`, `>`,
`&`, U+2028 and U+2029 are escaped. -/
def escChar (c : Char) : String :=
  if c = '"' then "\\\""
  else if c = '\\' then "\\\\"
  else if c = '\n' then "\\n"
  else if c = '\r' then "\\r"
  else if c = '\t' then "\\t"
  else if c.toNat < 32 then
    "\\u00" ++ String.singleton (hexDigitChar (c.toNat / 16)) ++
      String.singleton (hexDigitChar (c.toNat % 16))
  else if c = '<' then "\\u003c"
  else if c = '>' then "\\u003e"
  else if c = '&' then "\\u0026"
  else if c.toNat = 0x2028 then "\\u2028"
  else if c.toNat = 0x2029 then "\\u2029"
  else String.singleton c

def encJString (s : String) : String :=
  "\"" ++ String.join (s.toList.map escChar) ++ "\""

/-- `json.Marshal` of a `ProcessResponse`: struct fields in declaration
order with their tag names. -/
def encodeProcessResponse (r : ProcessResponse) : String :=
  "\x7b\"message\":" ++ encJString r.Message ++
    ",\"received_name\":" ++ encJString r.ReceivedName ++
    ",\"received_value\":" ++ toString r.ReceivedValue ++
    ",\"secret_from_env\":" ++ encJString r.SecretFromEnv ++ "\x7d"

/-- Lexicographic order on strings by code point, which on UTF-8 encoded
strings agrees with Go's byte-wise string order used for map keys. -/
def charListLt : List Char → List Char → Bool
  | [], [] => false
  | [], _ :: _ => true
  | _ :: _, [] => false
  | a :: as, b :: bs =>
    if a.toNat < b.toNat then true
    else if b.toNat < a.toNat then false
    else charListLt as bs

def insertByKey (kv : String × String) :
    List (String × String) → List (String × String)
  | [] => [kv]
  | x :: xs =>
    if charListLt kv.1.toList x.1.toList then kv :: x :: xs
    else x :: insertByKey kv xs

def sortByKey : List (String × String) → List (String × String)
  | [] => []
  | x :: xs => insertByKey x (sortByKey xs)

/-- `json.Marshal` of a `map[string]string`: keys are emitted in sorted
order. -/
def encodeStringMap (kvs : List (String × String)) : String :=
  "\x7b" ++ String.intercalate ","
    ((sortByKey kvs).map fun kv => encJString kv.1 ++ ":" ++ encJString kv.2) ++ "\x7d"

/-- The parts of an `http.Request` the handlers look at. -/
structure Request where
  method : String
  path : String
  body : String
  deriving DecidableEq

/-- What a handler writes to the `ResponseWriter`, plus the observable
effects the claims talk about: the log lines it emits and whether it closed
the request body. -/
structure HandlerResult where
  status : Nat
  contentType : String
  body : String
  response? : Option ProcessResponse
  bodyClosed : Bool
  logs : List String
  deriving DecidableEq

/-- Lines 61–64: `os.Getenv("API_SECRET_MESSAGE")` with the fallback for an
unset/empty variable.  `os.Getenv` returns `""` when the variable is unset,
so `env "API_SECRET_MESSAGE" = ""` covers both unset and empty. -/
def resolveSecret (env : String → String) : String :=
  let secretMessage := env "API_SECRET_MESSAGE"
  if secretMessage = "" then "Default secret (env var not set)" else secretMessage

/-- `healthHandler` (source lines 28–37): always 200/`application/json`; the
body is the encoding of the Go map
`map[string]string{"status": "ok", "message": "API is healthy!"}` followed by
the encoder's newline.  It never touches the request body. -/
def healthHandler (_req : Request) : HandlerResult :=
  { status := 200
    contentType := "application/json"
    body := encodeStringMap [("status", "ok"), ("message", "API is healthy!")] ++ "\n"
    response? := none
    bodyClosed := false
    logs := ["Health check successful"] }

/-- `processHandler` (source lines 40–79).  `http.Error` sets
`text/plain; charset=utf-8` and appends a newline to its message.  The
`defer r.Body.Close()` on line 56 is only reached after a successful decode,
so `bodyClosed` is `false` on the 405 and 400 paths. -/
def processHandler (env : String → String) (req : Request) : HandlerResult :=
  if req.method ≠ "POST" then
    { status := 405
      contentType := "text/plain; charset=utf-8"
      body := "Only POST method is allowed" ++ "\n"
      response? := none
      bodyClosed := false
      logs := [] }
  else
    match decodeProcessInput req.body with
    | .error e =>
      { status := 400
        contentType := "text/plain; charset=utf-8"
        body := "Invalid JSON input: " ++ e ++ "\n"
        response? := none
        bodyClosed := false
        logs := ["Error decoding JSON: " ++ e] }
    | .ok input =>
      let secretMessage := resolveSecret env
      let response : ProcessResponse :=
        { Message := "Successfully processed input for " ++ input.Name ++ "."
          ReceivedName := input.Name
          ReceivedValue := input.Value
          SecretFromEnv := secretMessage }
      { status := 200
        contentType := "application/json"
        body := encodeProcessResponse response ++ "\n"
        response? := some response
        bodyClosed := true
        logs := ["Received input: Name=" ++ input.Name ++ ", Value=" ++ toString input.Value,
                 "Processed input for " ++ input.Name ++ ", sent response."] }

/-- The route table registered in `main` (source lines 106–107), with
`http.ServeMux`'s not-found fallback for any other path. -/
def route (env : String → String) (req : Request) : HandlerResult :=
  if req.path = "/health" then healthHandler req
  else if req.path = "/process" then processHandler env req
  else
    { status := 404
      contentType := "text/plain; charset=utf-8"
      body := "404 page not found\n"
      response? := none
      bodyClosed := false
      logs := [] }

/-- The only mutable server-side state across requests is the process log. -/
abbrev ServerState := List String

/-- One request/response cycle of the server: the handler's log lines are
appended to the server state and its response is returned. -/
def serverStep (env : String → String) (st : ServerState) (req : Request) :
    ServerState × HandlerResult :=
  let r := route env req
  (st ++ r.logs, r)

/-! ### Helper lemmas -/

theorem toList_eq_data (s : String) : s.toList = s.data := rfl

theorem append_assoc_str (a b c : String) : (a ++ b) ++ c = a ++ (b ++ c) := by
  apply String.ext
  simp [String.data_append]

/-- A stream whose first character is `I` is not the beginning of any JSON
value. -/
theorem parseJval_headI (n : Nat) (rest : List Char) :
    parseJval (n + 1) ('I' :: rest) =
      .error ("invalid character " ++ String.singleton 'I' ++
        " looking for beginning of value") := by
  simp +decide [parseJval, skipWs, isWs, lbraceChar]

/-- The 400 body written by `processHandler` is never a JSON document,
whatever the decoder error was: it starts with the letter `I`. -/
theorem errorBody_not_json_document (e : String) :
    isSingleJsonDocument ("Invalid JSON input: " ++ e ++ "\n") = false := by
  have hlist : ("Invalid JSON input: " ++ e ++ "\n").toList
      = 'I' :: ("nvalid JSON input: ".toList ++ (e.toList ++ ['\n'])) := by
    simp [toList_eq_data, String.data_append]
  unfold isSingleJsonDocument
  rw [hlist]
  rw [show ('I' :: ("nvalid JSON input: ".toList ++ (e.toList ++ ['\n']))).length + 1
      = ("nvalid JSON input: ".toList ++ (e.toList ++ ['\n'])).length + 1 + 1 from rfl]
  rw [parseJval_headI]

/-! ### Claims -/

/-- C1: a POST to `/process` whose body decodes into a `ProcessInput` gets a
200 `application/json` response carrying a `ProcessResponse` whose
`received_name` / `received_value` echo the input and whose `message` is
`"Successfully processed input for " ++ name ++ "."`. -/
theorem processHandler_post_success_echoes (env : String → String) (req : Request)
    (input : ProcessInput) (hm : req.method = "POST")
    (hd : decodeProcessInput req.body = .ok input) :
    ∃ r : ProcessResponse,
      (processHandler env req).status = 200 ∧
      (processHandler env req).contentType = "application/json" ∧
      (processHandler env req).response? = some r ∧
      (processHandler env req).body = encodeProcessResponse r ++ "\n" ∧
      r.Message = "Successfully processed input for " ++ input.Name ++ "." ∧
      r.ReceivedName = input.Name ∧
      r.ReceivedValue = input.Value := by
  refine ⟨{ Message := "Successfully processed input for " ++ input.Name ++ "."
            ReceivedName := input.Name
            ReceivedValue := input.Value
            SecretFromEnv := resolveSecret env }, ?_⟩
  simp [processHandler, hm, hd]

theorem processHandler_post_success_echoes_witness :
    (processHandler (fun _ => "")
        { method := "POST", path := "/process",
          body := "\x7b\"name\":\"test\",\"value\":42\x7d" }).status = 200 ∧
    (processHandler (fun _ => "")
        { method := "POST", path := "/process",
          body := "\x7b\"name\":\"test\",\"value\":42\x7d" }).response?.map
      ProcessResponse.ReceivedName = some "test" ∧
    (processHandler (fun _ => "")
        { method := "POST", path := "/process",
          body := "\x7b\"name\":\"test\",\"value\":42\x7d" }).response?.map
      ProcessResponse.ReceivedValue = some 42 ∧
    (processHandler (fun _ => "")
        { method := "POST", path := "/process",
          body := "\x7b\"name\":\"test\",\"value\":42\x7d" }).response?.map
      ProcessResponse.Message = some "Successfully processed input for test." := by
  obtain ⟨r, h1, _, h3, _, h5, h6, h7⟩ :=
    processHandler_post_success_echoes (fun _ => "")
      { method := "POST", path := "/process",
        body := "\x7b\"name\":\"test\",\"value\":42\x7d" }
      { Name := "test", Value := 42 } rfl (by decide)
  refine ⟨h1, ?_, ?_, ?_⟩ <;> rw [h3] <;> simp [h5, h6, h7]

/-- C2: a POST to `/process` whose body does not decode returns 400, body
`"Invalid JSON input: " ++ e` plus the newline `http.Error` appends — in
particular it starts with `"Invalid JSON input:"` — logs the failure, sends
no `ProcessResponse`, and the only state effect of the request is the
appended log. -/
theorem processHandler_invalid_json_400 (env : String → String) (req : Request)
    (e : String) (hm : req.method = "POST")
    (hd : decodeProcessInput req.body = .error e) :
    (processHandler env req).status = 400 ∧
    (processHandler env req).body = "Invalid JSON input: " ++ e ++ "\n" ∧
    (∃ t, (processHandler env req).body = "Invalid JSON input:" ++ t) ∧
    (processHandler env req).logs = ["Error decoding JSON: " ++ e] ∧
    (processHandler env req).response? = none ∧
    (∀ st : ServerState, req.path = "/process" →
      (serverStep env st req).1 = st ++ (processHandler env req).logs) := by
  have hbody : (processHandler env req).body = "Invalid JSON input: " ++ e ++ "\n" := by
    simp [processHandler, hm, hd]
  refine ⟨by simp [processHandler, hm, hd], hbody, ⟨" " ++ (e ++ "\n"), ?_⟩,
    by simp [processHandler, hm, hd], by simp [processHandler, hm, hd], ?_⟩
  · rw [hbody, append_assoc_str]
    rfl
  · intro st hp
    simp [serverStep, route, hp]

theorem processHandler_invalid_json_400_witness :
    (processHandler (fun _ => "")
        { method := "POST", path := "/process", body := "not json" }).status = 400 ∧
    (processHandler (fun _ => "")
        { method := "POST", path := "/process", body := "not json" }).body =
      "Invalid JSON input: invalid character in literal null\n" ∧
    (serverStep (fun _ => "") []
        { method := "POST", path := "/process", body := "not json" }).1 =
      [] ++ (processHandler (fun _ => "")
        { method := "POST", path := "/process", body := "not json" }).logs := by
  have h := processHandler_invalid_json_400 (fun _ => "")
    { method := "POST", path := "/process", body := "not json" }
    "invalid character in literal null" rfl (by decide)
  exact ⟨h.1, h.2.1, h.2.2.2.2.2 [] rfl⟩

/-- C3 (amended): any non-POST request to `/process` gets status 405 with
body `"Only POST method is allowed"` followed by the newline `http.Error`
appends, and the result does not depend on the request body — the handler
returns before reading or decoding it. -/
theorem processHandler_non_post_405 (env : String → String) (req : Request)
    (b2 : String) (hm : req.method ≠ "POST") :
    (processHandler env req).status = 405 ∧
    (processHandler env req).body = "Only POST method is allowed\n" ∧
    (processHandler env req).contentType = "text/plain; charset=utf-8" ∧
    processHandler env { req with body := b2 } = processHandler env req := by
  refine ⟨?_, ?_, ?_, ?_⟩ <;> simp [processHandler, hm]

theorem processHandler_non_post_405_witness :
    (processHandler (fun _ => "")
        { method := "GET", path := "/process", body := "a" }).status = 405 ∧
    (processHandler (fun _ => "")
        { method := "GET", path := "/process", body := "a" }).body =
      "Only POST method is allowed\n" ∧
    processHandler (fun _ => "") { method := "GET", path := "/process", body := "b" } =
      processHandler (fun _ => "") { method := "GET", path := "/process", body := "a" } := by
  have h := processHandler_non_post_405 (fun _ => "")
    { method := "GET", path := "/process", body := "a" } "b" (by decide)
  exact ⟨h.1, h.2.1, h.2.2.2⟩

/-- C3 (counterexample): the claim as stated — 405 with body exactly
`"Only POST method is allowed"` — fails: `http.Error` appends a newline, so
the wire body is not byte-identical to that string. -/
theorem processHandler_405_body_counterexample :
    (processHandler (fun _ => "")
        { method := "GET", path := "/process", body := "" }).status = 405 ∧
    (processHandler (fun _ => "")
        { method := "GET", path := "/process", body := "" }).body ≠
      "Only POST method is allowed" := by decide

/-- C4: on a successful decode the response's `secret_from_env` is the
fallback `"Default secret (env var not set)"` when `API_SECRET_MESSAGE` is
unset or empty (`os.Getenv` returns `""` for both), and the variable's value
otherwise. -/
theorem processHandler_secret_fallback (env : String → String) (req : Request)
    (input : ProcessInput) (hm : req.method = "POST")
    (hd : decodeProcessInput req.body = .ok input) :
    ∃ r : ProcessResponse,
      (processHandler env req).response? = some r ∧
      (env "API_SECRET_MESSAGE" = "" →
        r.SecretFromEnv = "Default secret (env var not set)") ∧
      (env "API_SECRET_MESSAGE" ≠ "" →
        r.SecretFromEnv = env "API_SECRET_MESSAGE") := by
  refine ⟨{ Message := "Successfully processed input for " ++ input.Name ++ "."
            ReceivedName := input.Name
            ReceivedValue := input.Value
            SecretFromEnv := resolveSecret env },
    by simp [processHandler, hm, hd], ?_, ?_⟩ <;>
    intro h <;> simp [resolveSecret, h]

theorem processHandler_secret_fallback_witness :
    (processHandler (fun k => if k = "API_SECRET_MESSAGE" then "hunter2" else "")
        { method := "POST", path := "/process",
          body := "\x7b\"name\":\"test\",\"value\":42\x7d" }).response?.map
      ProcessResponse.SecretFromEnv = some "hunter2" := by
  obtain ⟨r, hr, _, hs⟩ :=
    processHandler_secret_fallback
      (fun k => if k = "API_SECRET_MESSAGE" then "hunter2" else "")
      { method := "POST", path := "/process",
        body := "\x7b\"name\":\"test\",\"value\":42\x7d" }
      { Name := "test", Value := 42 } rfl (by decide)
  rw [hr]
  simp [hs (by decide)]

/-- C5 (amended): every request to `/health` — any method, any body,
regardless of prior server state — gets 200 / `application/json` with body
`"\x7b\"message\":\"API is healthy!\",\"status\":\"ok\"\x7d\n"` (the map
keys come out sorted and the encoder appends a newline; the bytes are
JSON-equivalent to the object the claim states), the response does not
depend on the server state, and the only state effect is the appended log
line. -/
theorem healthHandler_always_ok (env : String → String) (st : ServerState)
    (m b : String) :
    (serverStep env st { method := m, path := "/health", body := b }).2 =
      healthHandler { method := m, path := "/health", body := b } ∧
    (healthHandler { method := m, path := "/health", body := b }).status = 200 ∧
    (healthHandler { method := m, path := "/health", body := b }).contentType =
      "application/json" ∧
    (healthHandler { method := m, path := "/health", body := b }).body =
      "\x7b\"message\":\"API is healthy!\",\"status\":\"ok\"\x7d\n" ∧
    (serverStep env st { method := m, path := "/health", body := b }).1 =
      st ++ ["Health check successful"] := by
  refine ⟨?_, rfl, rfl, ?_, ?_⟩
  · simp [serverStep, route]
  · simp only [healthHandler]
    decide
  · simp [serverStep, route, healthHandler]

/-- C5 (counterexample): the claim's literal body
`\x7b"status":"ok","message":"API is healthy!"\x7d` is not what the handler
writes: `encoding/json` emits map keys in sorted order (`message` before
`status`) and the encoder appends a newline. -/
theorem healthHandler_literal_body_counterexample :
    (healthHandler { method := "GET", path := "/health", body := "" }).status = 200 ∧
    (healthHandler { method := "GET", path := "/health", body := "" }).body ≠
      "\x7b\"status\":\"ok\",\"message\":\"API is healthy!\"\x7d" := by decide

/-- C6: the claim says the request body is closed on every path, but the
`defer r.Body.Close()` on line 56 sits after the decode-error `return` on
line 54, so on a decode failure the handler returns without ever
registering the close; only the success path closes the body. -/
theorem processHandler_decode_error_body_not_closed :
    (processHandler (fun _ => "")
        { method := "POST", path := "/process", body := "not json" }).status = 400 ∧
    (processHandler (fun _ => "")
        { method := "POST", path := "/process", body := "not json" }).bodyClosed = false ∧
    (processHandler (fun _ => "")
        { method := "POST", path := "/process",
          body := "\x7b\"name\":\"a\",\"value\":1\x7d" }).bodyClosed = true := by decide

/-- C7 (counterexample): `secret_from_env` is not bound to the environment
at startup.  `os.Getenv` runs inside the handler, so when the environment
differs between startup and request time the response carries the
request-time value, not the startup one. -/
theorem processHandler_secret_not_startup_counterexample :
    ¬ (∀ (envStart envNow : String → String) (req : Request) (r : ProcessResponse),
        (processHandler envNow req).response? = some r →
        r.SecretFromEnv = resolveSecret envStart) := by
  intro h
  have hr := h (fun k => if k = "API_SECRET_MESSAGE" then "startup-secret" else "")
    (fun k => if k = "API_SECRET_MESSAGE" then "request-secret" else "")
    { method := "POST", path := "/process", body := "\x7b\"name\":\"a\",\"value\":1\x7d" }
    { Message := "Successfully processed input for a.", ReceivedName := "a",
      ReceivedValue := 1, SecretFromEnv := "request-secret" }
    (by decide)
  simp [resolveSecret] at hr

/-- C7 (amended): `APP_PORT` is read once at startup, but
`API_SECRET_MESSAGE` is read inside the handler on every `/process`
request: `secret_from_env` is the resolution of the environment as it is at
request time. -/
theorem processHandler_secret_request_time (env : String → String) (req : Request)
    (r : ProcessResponse) (h : (processHandler env req).response? = some r) :
    r.SecretFromEnv = resolveSecret env := by
  unfold processHandler at h
  split at h
  · simp at h
  · split at h
    · simp at h
    · simp at h
      rw [← h]

theorem processHandler_secret_request_time_witness :
    ("hunter2" : String) =
      resolveSecret (fun k => if k = "API_SECRET_MESSAGE" then "hunter2" else "") := by
  exact processHandler_secret_request_time
    (fun k => if k = "API_SECRET_MESSAGE" then "hunter2" else "")
    { method := "POST", path := "/process", body := "\x7b\"name\":\"a\",\"value\":1\x7d" }
    { Message := "Successfully processed input for a.", ReceivedName := "a",
      ReceivedValue := 1, SecretFromEnv := "hunter2" }
    (by decide)

/-- C8: with a fixed environment, identical requests get identical
responses whatever server state (accumulated log) they run in — in
particular two consecutive identical POSTs to `/process` — because the
handlers read no mutable state: the response is a function of the
environment and the request alone. -/
theorem serverStep_identical_requests_identical_responses
    (env : String → String) (st st2 : ServerState) (req : Request) :
    (serverStep env st req).2 = (serverStep env st2 req).2 ∧
    (serverStep env (serverStep env st req).1 req).2 = (serverStep env st req).2 :=
  ⟨rfl, rfl⟩

/-- C9: the body `\x7b"name":"a","value":1\x7dgarbage` is not a single
well-formed JSON document, yet `/process` answers 200 echoing the leading
object: the decoder reads only the first JSON value and never checks for
trailing data. -/
theorem processHandler_trailing_garbage_200 :
    isSingleJsonDocument "\x7b\"name\":\"a\",\"value\":1\x7dgarbage" = false ∧
    (processHandler (fun _ => "")
        { method := "POST", path := "/process",
          body := "\x7b\"name\":\"a\",\"value\":1\x7dgarbage" }).status = 200 ∧
    (processHandler (fun _ => "")
        { method := "POST", path := "/process",
          body := "\x7b\"name\":\"a\",\"value\":1\x7dgarbage" }).response?.map
      ProcessResponse.ReceivedName = some "a" ∧
    (processHandler (fun _ => "")
        { method := "POST", path := "/process",
          body := "\x7b\"name\":\"a\",\"value\":1\x7dgarbage" }).response?.map
      ProcessResponse.ReceivedValue = some 1 := by decide

/-- C10: both `/process` error responses — the 405 and the 400 — are plain
text with content type `text/plain; charset=utf-8`, end in a newline, and
are not JSON documents; only the 200 success response carries
`application/json`. -/
theorem processHandler_error_responses_plain_text (env : String → String)
    (req : Request) :
    (req.method ≠ "POST" →
      (processHandler env req).status = 405 ∧
      (processHandler env req).contentType = "text/plain; charset=utf-8" ∧
      (∃ t, (processHandler env req).body = t ++ "\n") ∧
      isSingleJsonDocument (processHandler env req).body = false) ∧
    (∀ e, decodeProcessInput req.body = .error e → req.method = "POST" →
      (processHandler env req).status = 400 ∧
      (processHandler env req).contentType = "text/plain; charset=utf-8" ∧
      (∃ t, (processHandler env req).body = t ++ "\n") ∧
      isSingleJsonDocument (processHandler env req).body = false) ∧
    (∀ input, decodeProcessInput req.body = .ok input → req.method = "POST" →
      (processHandler env req).contentType = "application/json") := by
  refine ⟨?_, ?_, ?_⟩
  · intro hm
    have hbody : (processHandler env req).body = "Only POST method is allowed" ++ "\n" := by
      simp [processHandler, hm]
    refine ⟨by simp [processHandler, hm], by simp [processHandler, hm],
      ⟨"Only POST method is allowed", hbody⟩, ?_⟩
    rw [hbody]
    decide
  · intro e hd hm
    have hbody : (processHandler env req).body = "Invalid JSON input: " ++ e ++ "\n" := by
      simp [processHandler, hm, hd]
    refine ⟨by simp [processHandler, hm, hd], by simp [processHandler, hm, hd],
      ⟨"Invalid JSON input: " ++ e, hbody⟩, ?_⟩
    rw [hbody]
    exact errorBody_not_json_document e
  · intro input hd hm
    simp [processHandler, hm, hd]

theorem processHandler_error_responses_plain_text_witness :
    (processHandler (fun _ => "")
        { method := "GET", path := "/process", body := "" }).status = 405 ∧
    (processHandler (fun _ => "")
        { method := "GET", path := "/process", body := "" }).contentType =
      "text/plain; charset=utf-8" ∧
    isSingleJsonDocument (processHandler (fun _ => "")
        { method := "GET", path := "/process", body := "" }).body = false := by
  have h := (processHandler_error_responses_plain_text (fun _ => "")
    { method := "GET", path := "/process", body := "" }).1 (by decide)
  exact ⟨h.1, h.2.1, h.2.2.2⟩
